import Mathlib

/-
Shallow embedding of the fuel/odometer ledger engine of
`fire_station_project/fuel` (models.py and services.py).

Numeric representation: every fuel quantity in the source is a Django
`DecimalField` with `decimal_places=3` (litres with exactly three decimal
places).  The engine only ever adds, subtracts, and multiplies such values
by integers (kilometres or minutes), so every quantity that appears is an
exact integer multiple of 0.001 L.  We therefore represent fuel quantities
as integers counting thousandths of a litre (`ℤ`); this is an exact,
lossless image of the source's fixed-point decimal arithmetic.
Odometer readings and distances are integer kilometres, dates are modelled
as naturals ordered like calendar dates, and row ids are the naturals
assigned in insertion order (as Django's auto-increment primary keys are).
-/

namespace FireStation

/-- Selection order used throughout models.py: `order_by('-date', '-id')`
followed by `.first()` picks the row that is maximal in the lexicographic
order on (date, id).  `laterBy` is the binary max with that order (the
right argument wins only when strictly greater, matching the fact that ids
are unique so exact ties cannot occur). -/
def laterBy {α : Type} (dateOf idOf : α → Nat) (a b : α) : α :=
  if dateOf a < dateOf b ∨ (dateOf a = dateOf b ∧ idOf a < idOf b) then b else a

/-- One step of the scan that finds the (date desc, id desc)-first row:
combine the best row so far with the next row. -/
def stepLatest {α : Type} (dateOf idOf : α → Nat) (acc : Option α) (x : α) : α :=
  match acc with
  | none => x
  | some b => laterBy dateOf idOf b x

/-- The row returned by `queryset.order_by('-date', '-id').first()`:
the element maximal in the lexicographic order on (date, id), or `none`
for an empty queryset. -/
def firstByDateIdDesc {α : Type} (dateOf idOf : α → Nat) (l : List α) : Option α :=
  l.foldl (fun acc x => some (stepLatest dateOf idOf acc x)) none

/-- The lexicographic (date, id) order in which `order_by('-date', '-id')`
ranks rows (non-strict version). -/
def dateIdLe {α : Type} (dateOf idOf : α → Nat) (a b : α) : Prop :=
  dateOf a < dateOf b ∨ (dateOf a = dateOf b ∧ idOf a ≤ idOf b)

theorem laterBy_eq_or {α : Type} (dateOf idOf : α → Nat) (a b : α) :
    laterBy dateOf idOf a b = a ∨ laterBy dateOf idOf a b = b := by
  unfold laterBy
  split
  · exact Or.inr rfl
  · exact Or.inl rfl

theorem dateIdLe_trans {α : Type} (dateOf idOf : α → Nat) (a b c : α)
    (h1 : dateIdLe dateOf idOf a b) (h2 : dateIdLe dateOf idOf b c) :
    dateIdLe dateOf idOf a c := by
  unfold dateIdLe at h1 h2 ⊢
  omega

theorem dateIdLe_laterBy_left {α : Type} (dateOf idOf : α → Nat) (a b : α) :
    dateIdLe dateOf idOf a (laterBy dateOf idOf a b) := by
  unfold laterBy dateIdLe
  split
  · omega
  · omega

theorem dateIdLe_laterBy_right {α : Type} (dateOf idOf : α → Nat) (a b : α) :
    dateIdLe dateOf idOf b (laterBy dateOf idOf a b) := by
  unfold laterBy dateIdLe
  split
  · omega
  · omega

theorem firstByDateIdDesc_append_singleton {α : Type} (dateOf idOf : α → Nat)
    (l : List α) (x : α) :
    firstByDateIdDesc dateOf idOf (l ++ [x]) =
      some (stepLatest dateOf idOf (firstByDateIdDesc dateOf idOf l) x) := by
  unfold firstByDateIdDesc
  rw [List.foldl_append]
  rfl

theorem firstByDateIdDesc_aux_mem {α : Type} (dateOf idOf : α → Nat)
    (l : List α) : ∀ (acc : Option α) (b : α),
    l.foldl (fun acc x => some (stepLatest dateOf idOf acc x)) acc = some b →
    acc = some b ∨ b ∈ l := by
  induction l with
  | nil =>
    intro acc b h
    exact Or.inl h
  | cons x xs ih =>
    intro acc b h
    simp only [List.foldl_cons] at h
    rcases ih _ b h with h2 | h2
    · cases acc with
      | none =>
        simp only [Option.some.injEq, stepLatest] at h2
        exact Or.inr (by simp [← h2])
      | some c =>
        simp only [Option.some.injEq, stepLatest] at h2
        rcases laterBy_eq_or dateOf idOf c x with he | he
        · exact Or.inl (by rw [← h2, he])
        · exact Or.inr (by simp [← h2, he])
    · exact Or.inr (List.mem_cons_of_mem _ h2)

theorem firstByDateIdDesc_mem {α : Type} (dateOf idOf : α → Nat)
    (l : List α) (b : α) (h : firstByDateIdDesc dateOf idOf l = some b) :
    b ∈ l := by
  rcases firstByDateIdDesc_aux_mem dateOf idOf l none b h with h2 | h2
  · cases h2
  · exact h2

theorem firstByDateIdDesc_aux_maximal {α : Type} (dateOf idOf : α → Nat)
    (l : List α) : ∀ (acc : Option α) (b : α),
    l.foldl (fun acc x => some (stepLatest dateOf idOf acc x)) acc = some b →
    (∀ x ∈ l, dateIdLe dateOf idOf x b) ∧
    (∀ c, acc = some c → dateIdLe dateOf idOf c b) := by
  induction l with
  | nil =>
    intro acc b h
    constructor
    · intro x hx
      cases hx
    · intro c hc
      rw [hc] at h
      cases h
      exact Or.inr ⟨rfl, Nat.le_refl _⟩
  | cons x xs ih =>
    intro acc b h
    simp only [List.foldl_cons] at h
    rcases ih _ b h with ⟨hxs, hacc⟩
    have hstep : dateIdLe dateOf idOf x b ∧
        (∀ c, acc = some c → dateIdLe dateOf idOf c b) := by
      cases acc with
      | none =>
        have hx := hacc x rfl
        exact ⟨hx, by intro c hc; cases hc⟩
      | some c =>
        have hl := hacc (laterBy dateOf idOf c x) rfl
        constructor
        · exact dateIdLe_trans dateOf idOf _ _ _
            (dateIdLe_laterBy_right dateOf idOf c x) hl
        · intro d hd
          cases hd
          exact dateIdLe_trans dateOf idOf _ _ _
            (dateIdLe_laterBy_left dateOf idOf _ x) hl
    refine ⟨?_, hstep.2⟩
    intro y hy
    rcases List.mem_cons.mp hy with hy | hy
    · rw [hy]; exact hstep.1
    · exact hxs y hy

theorem firstByDateIdDesc_maximal {α : Type} (dateOf idOf : α → Nat)
    (l : List α) (b : α) (h : firstByDateIdDesc dateOf idOf l = some b) :
    ∀ x ∈ l, dateIdLe dateOf idOf x b :=
  (firstByDateIdDesc_aux_maximal dateOf idOf l none b h).1

theorem firstByDateIdDesc_aux_isSome {α : Type} (dateOf idOf : α → Nat)
    (l : List α) : ∀ (c : α),
    ∃ b, l.foldl (fun acc x => some (stepLatest dateOf idOf acc x)) (some c) = some b := by
  induction l with
  | nil =>
    intro c
    exact ⟨c, rfl⟩
  | cons x xs ih =>
    intro c
    simp only [List.foldl_cons]
    exact ih (laterBy dateOf idOf c x)

theorem firstByDateIdDesc_eq_none_iff {α : Type} (dateOf idOf : α → Nat)
    (l : List α) : firstByDateIdDesc dateOf idOf l = none ↔ l = [] := by
  constructor
  · intro h
    cases l with
    | nil => rfl
    | cons x xs =>
      unfold firstByDateIdDesc at h
      simp only [List.foldl_cons] at h
      replace h : List.foldl (fun acc x => some (stepLatest dateOf idOf acc x))
          (some x) xs = none := h
      rcases firstByDateIdDesc_aux_isSome dateOf idOf xs x with ⟨b, hb⟩
      rw [hb] at h
      cases h
  · intro h
    rw [h]
    rfl

/-- Season choices (`Season.WINTER` / `Season.SUMMER` in models.py). -/
inductive Season : Type
  | winter : Season
  | summer : Season
deriving DecidableEq

/-- A ledger snapshot row.  `OdometerFuelPassengerCar` and
`OdometerFuelFireTruck` have the same shape (car, odometer, fuel, date,
optional waybill reference); the embedding carries the rows of one car,
since every query in the source filters on `car=...`.  `fuel` counts
thousandths of a litre. -/
structure Snapshot : Type where
  id : Nat
  odometer : Nat
  fuel : Int
  date : Nat
deriving DecidableEq

/-- A `NormsPassengerCars` row for one car: rates in thousandths of a litre
per kilometre, `date` is the norm's effective date. -/
structure NormPC : Type where
  id : Nat
  season : Season
  city_norm : Int
  area_norm : Int
  date : Nat
deriving DecidableEq

/-- The user-supplied fields of a `PassengerCarWaybillRecord` (the
non-editable derived fields are filled by the engine). -/
structure PCRecordInput : Type where
  distance_city_km : Nat
  distance_area_km : Nat
  fuel_refueled : Int
  fuel_used : Int
deriving DecidableEq

/-- A persisted `PassengerCarWaybillRecord` with its derived fields frozen. -/
structure PCRecord : Type where
  id : Nat
  distance_city_km : Nat
  distance_area_km : Nat
  fuel_refueled : Int
  fuel_used : Int
  odometer_after : Nat
  fuel_before_departure : Int
  odometer_before : Nat
  distance_total_km : Nat
  fuel_used_city : Int
  fuel_used_area : Int
  fuel_on_return : Int
  fuel_used_normal : Int
deriving DecidableEq

/-- A `PassengerCarWaybill` together with its `records` reverse relation
(in insertion order, ids ascending).  The seven aggregate fields are the
derived ones filled by `recalc_totals`. -/
structure PCWaybillData : Type where
  date : Nat
  norm_season : Season
  records : List PCRecord
  upon_issuance : Int
  total_spent : Int
  total_received : Int
  required_by_norm : Int
  availability_upon_delivery : Int
  savings : Int
  overrun : Int
deriving DecidableEq

/-- The database state relevant to one passenger car: its norm rows, its
ledger snapshot rows (in insertion order), and the next auto-increment ids
of the two tables. -/
structure PCState : Type where
  norms : List NormPC
  ledger : List Snapshot
  nextSnapId : Nat
  nextRecId : Nat
deriving DecidableEq

/-- `OdometerFuelPassengerCar.objects.filter(car=car).order_by('-date', '-id').first()`
as used by `_fill_start_values`. -/
def latestSnap (l : List Snapshot) : Option Snapshot :=
  firstByDateIdDesc Snapshot.date Snapshot.id l

/-- `OdometerFuelPassengerCar.objects.filter(car=car, date__lte=d).order_by('-date', '-id').first()`
as used by `recalc_totals`. -/
def latestSnapAsOf (l : List Snapshot) (d : Nat) : Option Snapshot :=
  latestSnap (l.filter (fun s => decide (s.date ≤ d)))

/-- `NormsPassengerCars.objects.filter(car=car, season=season, date__lte=asOf).order_by('-date', '-id').first()`
as used by `PassengerCarWaybillRecord._apply_norms`. -/
def resolveNormPC (norms : List NormPC) (season : Season) (asOf : Nat) :
    Option NormPC :=
  firstByDateIdDesc NormPC.date NormPC.id
    (norms.filter (fun n => decide (n.season = season) && decide (n.date ≤ asOf)))

/-- `waybill.records.order_by('-id').first()`: the record with the highest
insertion id (the chain-last record). -/
def lastByIdPC (l : List PCRecord) : Option PCRecord :=
  firstByDateIdDesc (fun _ => 0) PCRecord.id l

/-- `PassengerCarWaybill.recalc_totals`: recompute the seven aggregate
fields from the waybill's records and the car's ledger.  Django's
`Sum(...)` is `None` over an empty queryset and the source coalesces it
with `or Decimal('0.000')`; a list sum yields 0 there directly. -/
def recalcTotalsPC (ledger : List Snapshot) (w : PCWaybillData) : PCWaybillData :=
  let start_state := latestSnapAsOf ledger w.date
  let upon_issuance : Int :=
    match start_state with
    | none => 0
    | some s => s.fuel
  let total_spent := (w.records.map PCRecord.fuel_used).sum
  let total_received := (w.records.map PCRecord.fuel_refueled).sum
  let required_by_norm := (w.records.map PCRecord.fuel_used_normal).sum
  let last_record := lastByIdPC w.records
  let availability_upon_delivery : Int :=
    match last_record with
    | none => upon_issuance
    | some r => r.fuel_on_return
  let diff := required_by_norm - total_spent
  { w with
    upon_issuance := upon_issuance
    total_spent := total_spent
    total_received := total_received
    required_by_norm := required_by_norm
    availability_upon_delivery := availability_upon_delivery
    savings := if 0 ≤ diff then diff else 0
    overrun := if 0 ≤ diff then 0 else -diff }

/-- The derived fields computed by `_fill_start_values`, `_apply_norms`
and `_calc_fuel_on_return` for a new `PassengerCarWaybillRecord`, given
the prior snapshot and the resolved norm. -/
def pcDerive (recId : Nat) (prior : Snapshot)
    (norm : NormPC) (inp : PCRecordInput) : PCRecord :=
  let odometer_before := prior.odometer
  let fuel_before_departure := prior.fuel
  let distance_total_km := inp.distance_city_km + inp.distance_area_km
  let fuel_used_city := (inp.distance_city_km : Int) * norm.city_norm
  let fuel_used_area := (inp.distance_area_km : Int) * norm.area_norm
  { id := recId
    distance_city_km := inp.distance_city_km
    distance_area_km := inp.distance_area_km
    fuel_refueled := inp.fuel_refueled
    fuel_used := inp.fuel_used
    odometer_after := odometer_before + distance_total_km
    fuel_before_departure := fuel_before_departure
    odometer_before := odometer_before
    distance_total_km := distance_total_km
    fuel_used_city := fuel_used_city
    fuel_used_area := fuel_used_area
    fuel_on_return := fuel_before_departure - inp.fuel_used + inp.fuel_refueled
    fuel_used_normal := fuel_used_city + fuel_used_area }

/-- The errors raised inside the commit transaction.  The source raises
`ValidationError` with a message in both cases; the spec names them
`NoPriorState` and `NormNotFound`. -/
inductive EngineError : Type
  | noPriorState : EngineError
  | normNotFound : EngineError
deriving DecidableEq

/-- `PassengerCarWaybillRecord.save` for a new record: inside one atomic
transaction, fill the start values from the latest ledger snapshot
(raising if none exists), resolve the norm by the waybill's season and
date (raising if none matches), compute the derived fields, persist the
record, append a ledger snapshot `(odometer_after, fuel_on_return)` dated
at the waybill's date, and recalc the waybill's aggregates.  A raise
aborts the transaction with no writes, which the embedding renders by
returning `Except.error` without producing a successor state. -/
def commitPC (st : PCState) (w : PCWaybillData) (inp : PCRecordInput) :
    Except EngineError (PCState × PCWaybillData × PCRecord) :=
  match latestSnap st.ledger with
  | none => .error .noPriorState
  | some prior =>
    match resolveNormPC st.norms w.norm_season w.date with
    | none => .error .normNotFound
    | some norm =>
      let r := pcDerive st.nextRecId prior norm inp
      let snap : Snapshot :=
        { id := st.nextSnapId
          odometer := r.odometer_after
          fuel := r.fuel_on_return
          date := w.date }
      let st2 : PCState :=
        { st with
          ledger := st.ledger ++ [snap]
          nextSnapId := st.nextSnapId + 1
          nextRecId := st.nextRecId + 1 }
      let w2 := recalcTotalsPC st2.ledger { w with records := w.records ++ [r] }
      .ok (st2, w2, r)

/-- Well-formedness of a passenger-car state: every ledger row's id is
below the table's next auto-increment id (true of any state reachable
from an empty table, since ids are assigned in insertion order). -/
def PCWf (st : PCState) : Prop :=
  ∀ s ∈ st.ledger, s.id < st.nextSnapId

/-- A `NormsFireTruck` row for one truck: rate per kilometre and per
minute with / without the auxiliary pump, in thousandths of a litre. -/
structure NormFT : Type where
  id : Nat
  season : Season
  with_pump_norm : Int
  without_pump_norm : Int
  km_norm : Int
  date : Nat
deriving DecidableEq

/-- The user-supplied fields of a `FireTruckWaybillRecord` (here
`odometer_after` is supplied by the user, unlike the passenger car). -/
structure FTRecordInput : Type where
  odometer_after : Nat
  time_with_pump : Nat
  time_without_pump : Nat
  fuel_refueled : Int
  fuel_used : Int
deriving DecidableEq

/-- A persisted `FireTruckWaybillRecord` with its derived fields frozen.
`distance_km` is computed by Python integer subtraction, hence `Int`. -/
structure FTRecord : Type where
  id : Nat
  odometer_after : Nat
  time_with_pump : Nat
  time_without_pump : Nat
  fuel_refueled : Int
  fuel_used : Int
  fuel_before_departure : Int
  odometer_before : Nat
  distance_km : Int
  fuel_on_return : Int
  fuel_used_by_distance : Int
  fuel_used_with_pump : Int
  fuel_used_without_pump : Int
  fuel_used_normal : Int
deriving DecidableEq

/-- A `FireTruckWaybill` together with its `records` reverse relation. -/
structure FTWaybillData : Type where
  date : Nat
  norm_season : Season
  records : List FTRecord
  upon_issuance : Int
  total_spent : Int
  total_received : Int
  required_by_norm : Int
  availability_upon_delivery : Int
  savings : Int
  overrun : Int
deriving DecidableEq

/-- The database state relevant to one fire truck (mirrors `PCState`;
`OdometerFuelFireTruck` shares the `Snapshot` shape). -/
structure FTState : Type where
  norms : List NormFT
  ledger : List Snapshot
  nextSnapId : Nat
  nextRecId : Nat
deriving DecidableEq

/-- `NormsFireTruck.objects.filter(car=car, season=season, date__lte=asOf).order_by('-date', '-id').first()`
as used by `FireTruckWaybillRecord._apply_norms`. -/
def resolveNormFT (norms : List NormFT) (season : Season) (asOf : Nat) :
    Option NormFT :=
  firstByDateIdDesc NormFT.date NormFT.id
    (norms.filter (fun n => decide (n.season = season) && decide (n.date ≤ asOf)))

/-- `waybill.records.order_by('-id').first()` for fire-truck records. -/
def lastByIdFT (l : List FTRecord) : Option FTRecord :=
  firstByDateIdDesc (fun _ => 0) FTRecord.id l

/-- `FireTruckWaybill.recalc_totals` (same computation as the
passenger-car variant, over the truck's ledger and records). -/
def recalcTotalsFT (ledger : List Snapshot) (w : FTWaybillData) : FTWaybillData :=
  let start_state := latestSnapAsOf ledger w.date
  let upon_issuance : Int :=
    match start_state with
    | none => 0
    | some s => s.fuel
  let total_spent := (w.records.map FTRecord.fuel_used).sum
  let total_received := (w.records.map FTRecord.fuel_refueled).sum
  let required_by_norm := (w.records.map FTRecord.fuel_used_normal).sum
  let last_record := lastByIdFT w.records
  let availability_upon_delivery : Int :=
    match last_record with
    | none => upon_issuance
    | some r => r.fuel_on_return
  let diff := required_by_norm - total_spent
  { w with
    upon_issuance := upon_issuance
    total_spent := total_spent
    total_received := total_received
    required_by_norm := required_by_norm
    availability_upon_delivery := availability_upon_delivery
    savings := if 0 ≤ diff then diff else 0
    overrun := if 0 ≤ diff then 0 else -diff }

/-- The derived fields computed for a new `FireTruckWaybillRecord`:
`distance_km = odometer_after - odometer_before` (Python `int`
subtraction), fuel by norm from distance and the two time buckets. -/
def ftDerive (recId : Nat) (prior : Snapshot)
    (norm : NormFT) (inp : FTRecordInput) : FTRecord :=
  let odometer_before := prior.odometer
  let fuel_before_departure := prior.fuel
  let distance_km : Int := (inp.odometer_after : Int) - (odometer_before : Int)
  let fuel_used_by_distance := distance_km * norm.km_norm
  let fuel_used_with_pump := (inp.time_with_pump : Int) * norm.with_pump_norm
  let fuel_used_without_pump := (inp.time_without_pump : Int) * norm.without_pump_norm
  { id := recId
    odometer_after := inp.odometer_after
    time_with_pump := inp.time_with_pump
    time_without_pump := inp.time_without_pump
    fuel_refueled := inp.fuel_refueled
    fuel_used := inp.fuel_used
    fuel_before_departure := fuel_before_departure
    odometer_before := odometer_before
    distance_km := distance_km
    fuel_on_return := fuel_before_departure - inp.fuel_used + inp.fuel_refueled
    fuel_used_by_distance := fuel_used_by_distance
    fuel_used_with_pump := fuel_used_with_pump
    fuel_used_without_pump := fuel_used_without_pump
    fuel_used_normal := fuel_used_by_distance + fuel_used_with_pump + fuel_used_without_pump }

/-- `FireTruckWaybillRecord.save` for a new record (mirrors `commitPC`). -/
def commitFT (st : FTState) (w : FTWaybillData) (inp : FTRecordInput) :
    Except EngineError (FTState × FTWaybillData × FTRecord) :=
  match latestSnap st.ledger with
  | none => .error .noPriorState
  | some prior =>
    match resolveNormFT st.norms w.norm_season w.date with
    | none => .error .normNotFound
    | some norm =>
      let r := ftDerive st.nextRecId prior norm inp
      let snap : Snapshot :=
        { id := st.nextSnapId
          odometer := r.odometer_after
          fuel := r.fuel_on_return
          date := w.date }
      let st2 : FTState :=
        { st with
          ledger := st.ledger ++ [snap]
          nextSnapId := st.nextSnapId + 1
          nextRecId := st.nextRecId + 1 }
      let w2 := recalcTotalsFT st2.ledger { w with records := w.records ++ [r] }
      .ok (st2, w2, r)

/-- Well-formedness of a fire-truck state (mirrors `PCWf`). -/
def FTWf (st : FTState) : Prop :=
  ∀ s ∈ st.ledger, s.id < st.nextSnapId

/-- The (date desc, id desc)-latest ledger snapshot is the vehicle state
the engine itself reads (`_fill_start_values`); this is the live odometer
it observes, 0 on an empty ledger. -/
def liveOdometer (l : List Snapshot) : Nat :=
  match latestSnap l with
  | none => 0
  | some s => s.odometer

/-- The fuel of the (date desc, id desc)-latest ledger snapshot, the live
fuel level the engine observes, 0 on an empty ledger. -/
def liveFuel (l : List Snapshot) : Int :=
  match latestSnap l with
  | none => 0
  | some s => s.fuel

/-- Modelled from the spec: the `User` rows as the signature workflow in
services.py sees them (the services module imports `User`,
`RequiredRole`, `RoleSubstitution`, `Signature` and `Waybill` from a
models module revision that is not in the source tree).  Only the id and
the role id matter to `can_user_sign_required_role` and
`sign_waybill_for_required_role`; roles are carried by id. -/
structure SigUser : Type where
  id : Nat
  role : Nat
deriving DecidableEq

/-- Modelled from the spec: a required signature slot on a document,
carrying the role entitled to fill it (`req.role_id` in services.py). -/
structure RequiredRole : Type where
  id : Nat
  role : Nat
deriving DecidableEq

/-- Modelled from the spec: a substitution mapping registering
`substitute_role` as an approved substitute for `main_role` (the filter
`RoleSubstitution.objects.filter(main_role=..., substitute_role=...)`). -/
structure RoleSubstitution : Type where
  main_role : Nat
  substitute_role : Nat
deriving DecidableEq

/-- Modelled from the spec: a signature row keyed by (waybill, required
role slot) with the signing user (the `get_or_create` key and default in
services.py). -/
structure Signature : Type where
  waybill : Nat
  required_role : Nat
  user : Nat
deriving DecidableEq

/-- `can_user_sign_required_role` from services.py: the user's role
equals the slot's role, or a `RoleSubstitution` row registers the user's
role as a substitute for the slot's role. -/
def can_user_sign_required_role (subs : List RoleSubstitution)
    (user : SigUser) (req : RequiredRole) : Bool :=
  if user.role = req.role then
    true
  else
    subs.any (fun s => decide (s.main_role = req.role) &&
                       decide (s.substitute_role = user.role))

/-- The lookup half of
`Signature.objects.get_or_create(waybill=..., required_role=..., defaults=...)`:
the existing row with that key, if any. -/
def findSignature (sigs : List Signature) (waybillId : Nat)
    (req : RequiredRole) : Option Signature :=
  sigs.find? (fun s => decide (s.waybill = waybillId) &&
                       decide (s.required_role = req.id))

/-- The signature-workflow error (`django.core.exceptions.PermissionDenied`). -/
inductive SignError : Type
  | permissionDenied : SignError
deriving DecidableEq

/-- `sign_waybill_for_required_role` from services.py: refuse when
`can_user_sign_required_role` is false; otherwise get-or-create the
signature row keyed by (waybill, slot) with the user as default, and
refuse after the fact when the existing row belongs to a different user.
Returns the signature table (unchanged unless a row was created) and the
returned signature. -/
def sign_waybill_for_required_role (subs : List RoleSubstitution)
    (sigs : List Signature) (user : SigUser) (waybillId : Nat)
    (req : RequiredRole) : Except SignError (List Signature × Signature) :=
  if can_user_sign_required_role subs user req then
    match findSignature sigs waybillId req with
    | some s =>
      if s.user = user.id then .ok (sigs, s)
      else .error .permissionDenied
    | none =>
      let s : Signature :=
        { waybill := waybillId, required_role := req.id, user := user.id }
      .ok (sigs ++ [s], s)
  else .error .permissionDenied

/-- At most one signature row per (waybill, required-role slot) pair —
the uniqueness the spec says `get_or_create` plus a DB constraint
enforce. -/
def atMostOnePerSlot (sigs : List Signature) : Prop :=
  ∀ wb rr, (sigs.filter (fun s => decide (s.waybill = wb) &&
                                  decide (s.required_role = rr))).length ≤ 1

/-- Seed ledger state used by the concrete scenarios: odometer 1000 km,
fuel 50.000 L (= 50000 thousandths), dated day 0, row id 0. -/
def seedSnap : Snapshot := ⟨0, 1000, 50000, 0⟩

/-- Concrete passenger-car norm: summer, 0.100 L/km city, 0.080 L/km
area, effective day 0. -/
def pcNorm0 : NormPC := ⟨0, Season.summer, 100, 80, 0⟩

/-- Concrete passenger-car state: one norm row, the seed snapshot. -/
def pcSt0 : PCState := ⟨[pcNorm0], [seedSnap], 1, 0⟩

/-- Concrete passenger-car waybill dated day 1, summer, no records yet. -/
def pcW0 : PCWaybillData := ⟨1, Season.summer, [], 0, 0, 0, 0, 0, 0, 0⟩

/-- Concrete trip input: 10 km city, 5 km area, no refuel, 1.600 L
actually used (the scenario of spec section 8). -/
def pcInp0 : PCRecordInput := ⟨10, 5, 0, 1600⟩

/-- Fallback triple used only to name the components of a successful
concrete commit. -/
def pcDummy : PCState × PCWaybillData × PCRecord :=
  (pcSt0, pcW0, pcDerive 0 seedSnap pcNorm0 pcInp0)

/-- The result of the first concrete passenger-car commit. -/
def pcOut0 : PCState × PCWaybillData × PCRecord :=
  ((commitPC pcSt0 pcW0 pcInp0).toOption).getD pcDummy

/-- A second concrete waybill, dated day 2. -/
def pcW1 : PCWaybillData := ⟨2, Season.summer, [], 0, 0, 0, 0, 0, 0, 0⟩

/-- Concrete second trip input: 3 km city, 2 km area, 20.000 L refueled,
0.900 L used. -/
def pcInp1 : PCRecordInput := ⟨3, 2, 20000, 900⟩

/-- The result of the second concrete passenger-car commit, chained on
the state left by the first. -/
def pcOut1 : PCState × PCWaybillData × PCRecord :=
  ((commitPC pcOut0.1 pcW1 pcInp1).toOption).getD pcDummy

/-- Concrete fire-truck norm: winter, 2.000 L/min with pump, 1.000 L/min
without, 0.400 L/km, effective day 0. -/
def ftNorm0 : NormFT := ⟨0, Season.winter, 2000, 1000, 400, 0⟩

/-- Concrete fire-truck state: one norm row, the seed snapshot. -/
def ftSt0 : FTState := ⟨[ftNorm0], [seedSnap], 1, 0⟩

/-- Concrete fire-truck waybill dated day 1, winter, no records yet. -/
def ftW0 : FTWaybillData := ⟨1, Season.winter, [], 0, 0, 0, 0, 0, 0, 0⟩

/-- Concrete fire-truck trip input: odometer after 1010 km, 3 min with
pump, 4 min without, no refuel, 7.000 L actually used. -/
def ftInp0 : FTRecordInput := ⟨1010, 3, 4, 0, 7000⟩

/-- Fallback triple for the concrete fire-truck commit. -/
def ftDummy : FTState × FTWaybillData × FTRecord :=
  (ftSt0, ftW0, ftDerive 0 seedSnap ftNorm0 ftInp0)

/-- The result of the concrete fire-truck commit. -/
def ftOut0 : FTState × FTWaybillData × FTRecord :=
  ((commitFT ftSt0 ftW0 ftInp0).toOption).getD ftDummy

/-- A seed snapshot dated day 20, for the out-of-order scenario. -/
def lateSeed : Snapshot := ⟨0, 1000, 50000, 20⟩

/-- Passenger-car state whose only snapshot is dated later (day 20) than
the waybill about to be committed (day 10). -/
def pcSt9 : PCState := ⟨[pcNorm0], [lateSeed], 1, 0⟩

/-- Out-of-order waybill dated day 10 (earlier than the seed snapshot). -/
def pcW9 : PCWaybillData := ⟨10, Season.summer, [], 0, 0, 0, 0, 0, 0, 0⟩

/-- Passenger-car state with an empty ledger (vehicle never seeded). -/
def pcStE : PCState := ⟨[pcNorm0], [], 0, 0⟩

/-- Fire-truck state with an empty ledger (vehicle never seeded). -/
def ftStE : FTState := ⟨[ftNorm0], [], 0, 0⟩

/-- Passenger-car state with a seeded ledger but no norm rows. -/
def pcStN : PCState := ⟨[], [seedSnap], 1, 0⟩

/-- Fire-truck state with a seeded ledger but no norm rows. -/
def ftStN : FTState := ⟨[], [seedSnap], 1, 0⟩

/-- Concrete substitution table: role 2 may substitute for role 1. -/
def subs0 : List RoleSubstitution := [⟨1, 2⟩]

/-- User A, id 10, holding role 1. -/
def userA : SigUser := ⟨10, 1⟩

/-- User B, id 11, holding role 3 (neither required nor substitute). -/
def userB : SigUser := ⟨11, 3⟩

/-- User C, id 12, holding role 2 (an approved substitute for role 1). -/
def userC : SigUser := ⟨12, 2⟩

/-- Required signature slot id 5, demanding role 1. -/
def req0 : RequiredRole := ⟨5, 1⟩

/-- Signature of slot 5 on waybill 100 by user A (id 10). -/
def sig0 : Signature := ⟨100, 5, 10⟩

/-- Signature table holding only `sig0`. -/
def sigs0 : List Signature := [sig0]

theorem latestSnap_append (l : List Snapshot) (x : Snapshot) :
    latestSnap (l ++ [x]) =
      some (stepLatest Snapshot.date Snapshot.id (latestSnap l) x) := by
  unfold latestSnap
  exact firstByDateIdDesc_append_singleton Snapshot.date Snapshot.id l x

theorem latestSnap_append_eq (l : List Snapshot) (x : Snapshot)
    (hd : ∀ s ∈ l, s.date ≤ x.date) (hi : ∀ s ∈ l, s.id < x.id) :
    latestSnap (l ++ [x]) = some x := by
  rw [latestSnap_append]
  cases hls : latestSnap l with
  | none => rfl
  | some b =>
    have hb : b ∈ l := firstByDateIdDesc_mem Snapshot.date Snapshot.id l b hls
    have h1 := hd b hb
    have h2 := hi b hb
    simp only [Option.some.injEq, stepLatest]
    unfold laterBy
    rw [if_pos]
    omega

theorem latestSnap_eq_none_iff (l : List Snapshot) :
    latestSnap l = none ↔ l = [] :=
  firstByDateIdDesc_eq_none_iff Snapshot.date Snapshot.id l

theorem latestSnapAsOf_append_eq (l : List Snapshot) (x : Snapshot) (d : Nat)
    (hx : x.date = d) (hi : ∀ s ∈ l, s.id < x.id) :
    latestSnapAsOf (l ++ [x]) d = some x := by
  unfold latestSnapAsOf
  rw [List.filter_append]
  have hxf : List.filter (fun s => decide (s.date ≤ d)) [x] = [x] := by
    simp [hx]
  rw [hxf]
  apply latestSnap_append_eq
  · intro s hs
    rw [List.mem_filter] at hs
    have := of_decide_eq_true hs.2
    omega
  · intro s hs
    rw [List.mem_filter] at hs
    exact hi s hs.1

theorem commitPC_ok_elim (st : PCState) (w : PCWaybillData)
    (inp : PCRecordInput) (st2 : PCState) (w2 : PCWaybillData) (r : PCRecord)
    (h : commitPC st w inp = .ok (st2, w2, r)) :
    ∃ prior norm,
      latestSnap st.ledger = some prior ∧
      resolveNormPC st.norms w.norm_season w.date = some norm ∧
      r = pcDerive st.nextRecId prior norm inp ∧
      st2.norms = st.norms ∧
      st2.ledger = st.ledger ++
        [{ id := st.nextSnapId, odometer := r.odometer_after,
           fuel := r.fuel_on_return, date := w.date }] ∧
      st2.nextSnapId = st.nextSnapId + 1 ∧
      st2.nextRecId = st.nextRecId + 1 ∧
      w2 = recalcTotalsPC st2.ledger { w with records := w.records ++ [r] } := by
  revert h
  unfold commitPC
  cases hls : latestSnap st.ledger with
  | none =>
    intro h
    cases h
  | some prior =>
    cases hrn : resolveNormPC st.norms w.norm_season w.date with
    | none =>
      intro h
      cases h
    | some norm =>
      intro h
      simp only [Except.ok.injEq, Prod.mk.injEq] at h
      obtain ⟨h1, h2, h3⟩ := h
      subst h1
      subst h2
      subst h3
      exact ⟨prior, norm, rfl, rfl, rfl, rfl, rfl, rfl, rfl, rfl⟩

theorem commitFT_ok_elim (st : FTState) (w : FTWaybillData)
    (inp : FTRecordInput) (st2 : FTState) (w2 : FTWaybillData) (r : FTRecord)
    (h : commitFT st w inp = .ok (st2, w2, r)) :
    ∃ prior norm,
      latestSnap st.ledger = some prior ∧
      resolveNormFT st.norms w.norm_season w.date = some norm ∧
      r = ftDerive st.nextRecId prior norm inp ∧
      st2.norms = st.norms ∧
      st2.ledger = st.ledger ++
        [{ id := st.nextSnapId, odometer := r.odometer_after,
           fuel := r.fuel_on_return, date := w.date }] ∧
      st2.nextSnapId = st.nextSnapId + 1 ∧
      st2.nextRecId = st.nextRecId + 1 ∧
      w2 = recalcTotalsFT st2.ledger { w with records := w.records ++ [r] } := by
  revert h
  unfold commitFT
  cases hls : latestSnap st.ledger with
  | none =>
    intro h
    cases h
  | some prior =>
    cases hrn : resolveNormFT st.norms w.norm_season w.date with
    | none =>
      intro h
      cases h
    | some norm =>
      intro h
      simp only [Except.ok.injEq, Prod.mk.injEq] at h
      obtain ⟨h1, h2, h3⟩ := h
      subst h1
      subst h2
      subst h3
      exact ⟨prior, norm, rfl, rfl, rfl, rfl, rfl, rfl, rfl, rfl⟩

/-- C1: Chain continuity.  For every committed passenger-car trip record,
`odometer_before` / `fuel_before_departure` equal the odometer / fuel of
the latest prior ledger snapshot in (date desc, id desc) order (the seed
snapshot supplying the values for the first record); consequently, for
consecutive commits whose first waybill is dated no earlier than every
existing snapshot, the next record's before-values equal the previous
record's `odometer_after` / `fuel_on_return`. -/
theorem pc_chain_continuity :
    (∀ st w inp st2 w2 r, commitPC st w inp = .ok (st2, w2, r) →
      r.odometer_before = liveOdometer st.ledger ∧
      r.fuel_before_departure = liveFuel st.ledger) ∧
    (∀ st w1 inp1 st1 wb1 r1 w2 inp2 st2 wb2 r2,
      PCWf st →
      (∀ s ∈ st.ledger, s.date ≤ w1.date) →
      commitPC st w1 inp1 = .ok (st1, wb1, r1) →
      commitPC st1 w2 inp2 = .ok (st2, wb2, r2) →
      r2.odometer_before = r1.odometer_after ∧
      r2.fuel_before_departure = r1.fuel_on_return) := by
  constructor
  · intro st w inp st2 w2 r h
    obtain ⟨prior, norm, hls, hrn, hr, -, -, -, -, -⟩ :=
      commitPC_ok_elim st w inp st2 w2 r h
    subst hr
    unfold liveOdometer liveFuel
    rw [hls]
    exact ⟨rfl, rfl⟩
  · intro st w1 inp1 st1 wb1 r1 w2 inp2 st2 wb2 r2 hwf hdates h1 h2
    obtain ⟨p1, n1, hls1, hrn1, hr1, hnorms1, hledger1, hsnap1, hrec1, hw1⟩ :=
      commitPC_ok_elim st w1 inp1 st1 wb1 r1 h1
    obtain ⟨p2, n2, hls2, hrn2, hr2, -, -, -, -, -⟩ :=
      commitPC_ok_elim st1 w2 inp2 st2 wb2 r2 h2
    have hlatest : latestSnap st1.ledger =
        some ⟨st.nextSnapId, r1.odometer_after, r1.fuel_on_return, w1.date⟩ := by
      rw [hledger1]
      apply latestSnap_append_eq
      · intro s hs
        exact hdates s hs
      · intro s hs
        exact hwf s hs
    rw [hlatest] at hls2
    have hp2 : p2 = ⟨st.nextSnapId, r1.odometer_after, r1.fuel_on_return, w1.date⟩ := by
      cases hls2
      rfl
    subst hr2
    rw [hp2]
    exact ⟨rfl, rfl⟩

/-- Witness for C1 at the concrete two-commit scenario. -/
theorem pc_chain_continuity_witness :
    (pcOut0.2.2.odometer_before = liveOdometer pcSt0.ledger ∧
     pcOut0.2.2.fuel_before_departure = liveFuel pcSt0.ledger) ∧
    (pcOut1.2.2.odometer_before = pcOut0.2.2.odometer_after ∧
     pcOut1.2.2.fuel_before_departure = pcOut0.2.2.fuel_on_return) := by
  constructor
  · exact pc_chain_continuity.1 pcSt0 pcW0 pcInp0 pcOut0.1 pcOut0.2.1 pcOut0.2.2
      (by rfl)
  · exact pc_chain_continuity.2 pcSt0 pcW0 pcInp0 pcOut0.1 pcOut0.2.1 pcOut0.2.2
      pcW1 pcInp1 pcOut1.1 pcOut1.2.1 pcOut1.2.2
      (by unfold PCWf; decide) (by decide) (by rfl) (by rfl)

/-- C2: Derived consumption fields.  For a committed passenger-car record,
`distance_total = distance_city + distance_area`,
`fuel_used_by_norm = distance_city * city_rate + distance_area * area_rate`
and `odometer_after = odometer_before + distance_total`; for a committed
fire-truck record, `distance = odometer_after - odometer_before` and
`fuel_used_by_norm = distance * km_rate + minutes_with_pump * pump_rate +
minutes_without_pump * no_pump_rate`, with the rates taken from the
resolved norm. -/
theorem derived_consumption_fields :
    (∀ st w inp st2 w2 r n, commitPC st w inp = .ok (st2, w2, r) →
      resolveNormPC st.norms w.norm_season w.date = some n →
      r.distance_total_km = inp.distance_city_km + inp.distance_area_km ∧
      r.fuel_used_normal = (inp.distance_city_km : Int) * n.city_norm +
        (inp.distance_area_km : Int) * n.area_norm ∧
      r.odometer_after = r.odometer_before + r.distance_total_km) ∧
    (∀ st w inp st2 w2 r n, commitFT st w inp = .ok (st2, w2, r) →
      resolveNormFT st.norms w.norm_season w.date = some n →
      r.distance_km = (r.odometer_after : Int) - (r.odometer_before : Int) ∧
      r.fuel_used_normal = r.distance_km * n.km_norm +
        (r.time_with_pump : Int) * n.with_pump_norm +
        (r.time_without_pump : Int) * n.without_pump_norm) := by
  constructor
  · intro st w inp st2 w2 r n h hn
    obtain ⟨prior, norm, hls, hrn, hr, -, -, -, -, -⟩ :=
      commitPC_ok_elim st w inp st2 w2 r h
    rw [hn] at hrn
    cases hrn
    subst hr
    exact ⟨rfl, rfl, rfl⟩
  · intro st w inp st2 w2 r n h hn
    obtain ⟨prior, norm, hls, hrn, hr, -, -, -, -, -⟩ :=
      commitFT_ok_elim st w inp st2 w2 r h
    rw [hn] at hrn
    cases hrn
    subst hr
    exact ⟨rfl, rfl⟩

/-- Witness for C2 at the concrete passenger-car and fire-truck commits. -/
theorem derived_consumption_fields_witness :
    (pcOut0.2.2.distance_total_km = pcInp0.distance_city_km + pcInp0.distance_area_km ∧
     pcOut0.2.2.fuel_used_normal = (pcInp0.distance_city_km : Int) * pcNorm0.city_norm +
       (pcInp0.distance_area_km : Int) * pcNorm0.area_norm ∧
     pcOut0.2.2.odometer_after = pcOut0.2.2.odometer_before + pcOut0.2.2.distance_total_km) ∧
    (ftOut0.2.2.distance_km = (ftOut0.2.2.odometer_after : Int) - (ftOut0.2.2.odometer_before : Int) ∧
     ftOut0.2.2.fuel_used_normal = ftOut0.2.2.distance_km * ftNorm0.km_norm +
       (ftOut0.2.2.time_with_pump : Int) * ftNorm0.with_pump_norm +
       (ftOut0.2.2.time_without_pump : Int) * ftNorm0.without_pump_norm) := by
  constructor
  · exact derived_consumption_fields.1 pcSt0 pcW0 pcInp0
      pcOut0.1 pcOut0.2.1 pcOut0.2.2 pcNorm0 (by rfl) (by rfl)
  · exact derived_consumption_fields.2 ftSt0 ftW0 ftInp0
      ftOut0.1 ftOut0.2.1 ftOut0.2.2 ftNorm0 (by rfl) (by rfl)

/-- C3: For every committed trip record of either vehicle kind,
`fuel_on_return = fuel_before_departure + fuel_refueled - fuel_used`,
where `fuel_used` is the user-supplied actual figure carried over from
the input unchanged (independent of the by-norm figure). -/
theorem fuel_on_return_rule :
    (∀ st w inp st2 w2 r, commitPC st w inp = .ok (st2, w2, r) →
      r.fuel_on_return = r.fuel_before_departure + r.fuel_refueled - r.fuel_used ∧
      r.fuel_used = inp.fuel_used ∧ r.fuel_refueled = inp.fuel_refueled) ∧
    (∀ st w inp st2 w2 r, commitFT st w inp = .ok (st2, w2, r) →
      r.fuel_on_return = r.fuel_before_departure + r.fuel_refueled - r.fuel_used ∧
      r.fuel_used = inp.fuel_used ∧ r.fuel_refueled = inp.fuel_refueled) := by
  constructor
  · intro st w inp st2 w2 r h
    obtain ⟨prior, norm, hls, hrn, hr, -, -, -, -, -⟩ :=
      commitPC_ok_elim st w inp st2 w2 r h
    subst hr
    refine ⟨?_, rfl, rfl⟩
    simp only [pcDerive]
    omega
  · intro st w inp st2 w2 r h
    obtain ⟨prior, norm, hls, hrn, hr, -, -, -, -, -⟩ :=
      commitFT_ok_elim st w inp st2 w2 r h
    subst hr
    refine ⟨?_, rfl, rfl⟩
    simp only [ftDerive]
    omega

/-- Witness for C3 at the concrete passenger-car and fire-truck commits. -/
theorem fuel_on_return_rule_witness :
    (pcOut0.2.2.fuel_on_return = pcOut0.2.2.fuel_before_departure +
       pcOut0.2.2.fuel_refueled - pcOut0.2.2.fuel_used ∧
     pcOut0.2.2.fuel_used = pcInp0.fuel_used ∧
     pcOut0.2.2.fuel_refueled = pcInp0.fuel_refueled) ∧
    (ftOut0.2.2.fuel_on_return = ftOut0.2.2.fuel_before_departure +
       ftOut0.2.2.fuel_refueled - ftOut0.2.2.fuel_used ∧
     ftOut0.2.2.fuel_used = ftInp0.fuel_used ∧
     ftOut0.2.2.fuel_refueled = ftInp0.fuel_refueled) := by
  constructor
  · exact fuel_on_return_rule.1 pcSt0 pcW0 pcInp0
      pcOut0.1 pcOut0.2.1 pcOut0.2.2 (by rfl)
  · exact fuel_on_return_rule.2 ftSt0 ftW0 ftInp0
      ftOut0.1 ftOut0.2.1 ftOut0.2.2 (by rfl)

/-- C4: Norm resolution.  For either vehicle kind, the resolved norm is a
stored row for the requested season with the greatest effective date at
most the parent waybill's date (the resolver is called with the waybill's
date, not any per-record date), ties broken by highest insertion id; when
no such row exists resolution is `none`, and a commit on a seeded vehicle
then fails with `normNotFound`, producing no state. -/
theorem norm_resolution :
    (∀ norms season asOf n, resolveNormPC norms season asOf = some n →
      n ∈ norms ∧ n.season = season ∧ n.date ≤ asOf ∧
      ∀ m ∈ norms, m.season = season → m.date ≤ asOf →
        (m.date < n.date ∨ (m.date = n.date ∧ m.id ≤ n.id))) ∧
    (∀ norms season asOf, resolveNormPC norms season asOf = none ↔
      ∀ m ∈ norms, ¬(m.season = season ∧ m.date ≤ asOf)) ∧
    (∀ st w inp, st.ledger ≠ [] →
      resolveNormPC st.norms w.norm_season w.date = none →
      commitPC st w inp = .error .normNotFound) ∧
    (∀ norms season asOf n, resolveNormFT norms season asOf = some n →
      n ∈ norms ∧ n.season = season ∧ n.date ≤ asOf ∧
      ∀ m ∈ norms, m.season = season → m.date ≤ asOf →
        (m.date < n.date ∨ (m.date = n.date ∧ m.id ≤ n.id))) ∧
    (∀ norms season asOf, resolveNormFT norms season asOf = none ↔
      ∀ m ∈ norms, ¬(m.season = season ∧ m.date ≤ asOf)) ∧
    (∀ st w inp, st.ledger ≠ [] →
      resolveNormFT st.norms w.norm_season w.date = none →
      commitFT st w inp = .error .normNotFound) := by
  refine ⟨?_, ?_, ?_, ?_, ?_, ?_⟩
  · intro norms season asOf n hn
    unfold resolveNormPC at hn
    have hmem := firstByDateIdDesc_mem NormPC.date NormPC.id _ n hn
    rw [List.mem_filter] at hmem
    obtain ⟨hmemN, hp⟩ := hmem
    simp only [Bool.and_eq_true, decide_eq_true_eq] at hp
    refine ⟨hmemN, hp.1, hp.2, ?_⟩
    intro m hm hms hmd
    have hmf : m ∈ norms.filter
        (fun x => decide (x.season = season) && decide (x.date ≤ asOf)) := by
      rw [List.mem_filter]
      exact ⟨hm, by simp [hms, hmd]⟩
    have hmax := firstByDateIdDesc_maximal NormPC.date NormPC.id _ n hn m hmf
    unfold dateIdLe at hmax
    exact hmax
  · intro norms season asOf
    unfold resolveNormPC
    rw [firstByDateIdDesc_eq_none_iff, List.filter_eq_nil_iff]
    constructor
    · intro h m hm hc
      exact h m hm (by simp [hc.1, hc.2])
    · intro h m hm
      simp only [Bool.and_eq_true, decide_eq_true_eq]
      intro hc
      exact h m hm hc
  · intro st w inp hne hnone
    cases hls : latestSnap st.ledger with
    | none => exact absurd ((latestSnap_eq_none_iff st.ledger).mp hls) hne
    | some prior =>
      unfold commitPC
      rw [hls, hnone]
  · intro norms season asOf n hn
    unfold resolveNormFT at hn
    have hmem := firstByDateIdDesc_mem NormFT.date NormFT.id _ n hn
    rw [List.mem_filter] at hmem
    obtain ⟨hmemN, hp⟩ := hmem
    simp only [Bool.and_eq_true, decide_eq_true_eq] at hp
    refine ⟨hmemN, hp.1, hp.2, ?_⟩
    intro m hm hms hmd
    have hmf : m ∈ norms.filter
        (fun x => decide (x.season = season) && decide (x.date ≤ asOf)) := by
      rw [List.mem_filter]
      exact ⟨hm, by simp [hms, hmd]⟩
    have hmax := firstByDateIdDesc_maximal NormFT.date NormFT.id _ n hn m hmf
    unfold dateIdLe at hmax
    exact hmax
  · intro norms season asOf
    unfold resolveNormFT
    rw [firstByDateIdDesc_eq_none_iff, List.filter_eq_nil_iff]
    constructor
    · intro h m hm hc
      exact h m hm (by simp [hc.1, hc.2])
    · intro h m hm
      simp only [Bool.and_eq_true, decide_eq_true_eq]
      intro hc
      exact h m hm hc
  · intro st w inp hne hnone
    cases hls : latestSnap st.ledger with
    | none => exact absurd ((latestSnap_eq_none_iff st.ledger).mp hls) hne
    | some prior =>
      unfold commitFT
      rw [hls, hnone]

/-- Witness for C4: the concrete summer norm resolves for the concrete
waybill, and commits on seeded vehicles with no norm rows fail with
`normNotFound`. -/
theorem norm_resolution_witness :
    pcNorm0 ∈ pcSt0.norms ∧ pcNorm0.season = pcW0.norm_season ∧
    pcNorm0.date ≤ pcW0.date ∧
    commitPC pcStN pcW0 pcInp0 = .error .normNotFound ∧
    commitFT ftStN ftW0 ftInp0 = .error .normNotFound := by
  have h := norm_resolution.1 pcSt0.norms pcW0.norm_season pcW0.date pcNorm0 (by rfl)
  exact ⟨h.1, h.2.1, h.2.2.1,
    norm_resolution.2.2.1 pcStN pcW0 pcInp0 (by decide) (by rfl),
    norm_resolution.2.2.2.2.2 ftStN ftW0 ftInp0 (by decide) (by rfl)⟩

/-- C5: Savings/overrun rule and exclusivity.  After any recalc, with
`diff = required_by_norm - total_spent`: if `diff ≥ 0` then
`savings = diff` and `overrun = 0`, else `savings = 0` and
`overrun = -diff`; savings and overrun are each non-negative and never
both nonzero. -/
theorem savings_overrun_rule :
    (∀ ledger w,
      (0 ≤ (recalcTotalsPC ledger w).required_by_norm -
           (recalcTotalsPC ledger w).total_spent →
        (recalcTotalsPC ledger w).savings =
          (recalcTotalsPC ledger w).required_by_norm -
          (recalcTotalsPC ledger w).total_spent ∧
        (recalcTotalsPC ledger w).overrun = 0) ∧
      ((recalcTotalsPC ledger w).required_by_norm -
           (recalcTotalsPC ledger w).total_spent < 0 →
        (recalcTotalsPC ledger w).savings = 0 ∧
        (recalcTotalsPC ledger w).overrun =
          -((recalcTotalsPC ledger w).required_by_norm -
            (recalcTotalsPC ledger w).total_spent)) ∧
      0 ≤ (recalcTotalsPC ledger w).savings ∧
      0 ≤ (recalcTotalsPC ledger w).overrun ∧
      ((recalcTotalsPC ledger w).savings = 0 ∨
       (recalcTotalsPC ledger w).overrun = 0)) ∧
    (∀ ledger w,
      (0 ≤ (recalcTotalsFT ledger w).required_by_norm -
           (recalcTotalsFT ledger w).total_spent →
        (recalcTotalsFT ledger w).savings =
          (recalcTotalsFT ledger w).required_by_norm -
          (recalcTotalsFT ledger w).total_spent ∧
        (recalcTotalsFT ledger w).overrun = 0) ∧
      ((recalcTotalsFT ledger w).required_by_norm -
           (recalcTotalsFT ledger w).total_spent < 0 →
        (recalcTotalsFT ledger w).savings = 0 ∧
        (recalcTotalsFT ledger w).overrun =
          -((recalcTotalsFT ledger w).required_by_norm -
            (recalcTotalsFT ledger w).total_spent)) ∧
      0 ≤ (recalcTotalsFT ledger w).savings ∧
      0 ≤ (recalcTotalsFT ledger w).overrun ∧
      ((recalcTotalsFT ledger w).savings = 0 ∨
       (recalcTotalsFT ledger w).overrun = 0)) := by
  constructor
  · intro ledger w
    simp only [recalcTotalsPC]
    split_ifs with h <;> omega
  · intro ledger w
    simp only [recalcTotalsFT]
    split_ifs with h <;> omega

/-- Witness for C5 at the concrete recalced waybill (its single record
overruns the norm by 0.200 L). -/
theorem savings_overrun_rule_witness :
    (recalcTotalsPC pcOut0.1.ledger pcOut0.2.1).savings = 0 ∧
    (recalcTotalsPC pcOut0.1.ledger pcOut0.2.1).overrun =
      -((recalcTotalsPC pcOut0.1.ledger pcOut0.2.1).required_by_norm -
        (recalcTotalsPC pcOut0.1.ledger pcOut0.2.1).total_spent) ∧
    0 ≤ (recalcTotalsPC pcOut0.1.ledger pcOut0.2.1).savings ∧
    0 ≤ (recalcTotalsPC pcOut0.1.ledger pcOut0.2.1).overrun ∧
    ((recalcTotalsPC pcOut0.1.ledger pcOut0.2.1).savings = 0 ∨
     (recalcTotalsPC pcOut0.1.ledger pcOut0.2.1).overrun = 0) := by
  have h := savings_overrun_rule.1 pcOut0.1.ledger pcOut0.2.1
  exact ⟨(h.2.1 (by decide)).1, (h.2.1 (by decide)).2,
    h.2.2.1, h.2.2.2.1, h.2.2.2.2⟩

/-- C6: Aggregator sums.  After recalc of either kind of waybill,
`total_spent`, `total_received` and `required_by_norm` are the sums of
`fuel_used`, `fuel_refueled` and `fuel_used_normal` over the waybill's
records (zero when there are no records), and
`availability_upon_delivery` is the `fuel_on_return` of the record with
the highest insertion id, or `upon_issuance` when there are none. -/
theorem aggregator_sums :
    (∀ ledger w,
      (recalcTotalsPC ledger w).total_spent =
        (w.records.map PCRecord.fuel_used).sum ∧
      (recalcTotalsPC ledger w).total_received =
        (w.records.map PCRecord.fuel_refueled).sum ∧
      (recalcTotalsPC ledger w).required_by_norm =
        (w.records.map PCRecord.fuel_used_normal).sum ∧
      (w.records = [] →
        (recalcTotalsPC ledger w).total_spent = 0 ∧
        (recalcTotalsPC ledger w).total_received = 0 ∧
        (recalcTotalsPC ledger w).required_by_norm = 0 ∧
        (recalcTotalsPC ledger w).availability_upon_delivery =
          (recalcTotalsPC ledger w).upon_issuance) ∧
      (∀ r, lastByIdPC w.records = some r →
        (recalcTotalsPC ledger w).availability_upon_delivery =
          r.fuel_on_return)) ∧
    (∀ ledger w,
      (recalcTotalsFT ledger w).total_spent =
        (w.records.map FTRecord.fuel_used).sum ∧
      (recalcTotalsFT ledger w).total_received =
        (w.records.map FTRecord.fuel_refueled).sum ∧
      (recalcTotalsFT ledger w).required_by_norm =
        (w.records.map FTRecord.fuel_used_normal).sum ∧
      (w.records = [] →
        (recalcTotalsFT ledger w).total_spent = 0 ∧
        (recalcTotalsFT ledger w).total_received = 0 ∧
        (recalcTotalsFT ledger w).required_by_norm = 0 ∧
        (recalcTotalsFT ledger w).availability_upon_delivery =
          (recalcTotalsFT ledger w).upon_issuance) ∧
      (∀ r, lastByIdFT w.records = some r →
        (recalcTotalsFT ledger w).availability_upon_delivery =
          r.fuel_on_return)) := by
  constructor
  · intro ledger w
    refine ⟨rfl, rfl, rfl, ?_, ?_⟩
    · intro hrec
      simp only [recalcTotalsPC, hrec, List.map_nil, List.sum_nil]
      exact ⟨trivial, trivial, trivial, rfl⟩
    · intro r hr
      simp only [recalcTotalsPC, hr]
  · intro ledger w
    refine ⟨rfl, rfl, rfl, ?_, ?_⟩
    · intro hrec
      simp only [recalcTotalsFT, hrec, List.map_nil, List.sum_nil]
      exact ⟨trivial, trivial, trivial, rfl⟩
    · intro r hr
      simp only [recalcTotalsFT, hr]

/-- Witness for C6: the empty concrete waybill and the recalced one-record
concrete waybill. -/
theorem aggregator_sums_witness :
    (recalcTotalsPC pcSt0.ledger pcW0).availability_upon_delivery =
      (recalcTotalsPC pcSt0.ledger pcW0).upon_issuance ∧
    (recalcTotalsPC pcOut0.1.ledger pcOut0.2.1).availability_upon_delivery =
      pcOut0.2.2.fuel_on_return ∧
    (recalcTotalsPC pcOut0.1.ledger pcOut0.2.1).total_spent =
      (pcOut0.2.1.records.map PCRecord.fuel_used).sum := by
  refine ⟨((aggregator_sums.1 pcSt0.ledger pcW0).2.2.2.1 (by rfl)).2.2.2, ?_, ?_⟩
  · exact (aggregator_sums.1 pcOut0.1.ledger pcOut0.2.1).2.2.2.2
      pcOut0.2.2 (by rfl)
  · exact (aggregator_sums.1 pcOut0.1.ledger pcOut0.2.1).1

/-- C7 counterexample: on the concrete scenario (seed fuel 50.000 L dated
day 0, one committed trip on a waybill dated day 1 using 1.600 L), the
waybill's `upon_issuance` after the commit is 48.400 L — the trip's own
`fuel_on_return` — and not the pre-trip seed fuel value of 50.000 L,
because the trip's ledger snapshot carries the waybill's date and shadows
the seed in the (date desc, id desc) as-of lookup. -/
theorem upon_issuance_counterexample :
    (commitPC pcSt0 pcW0 pcInp0).map (fun out => out.2.1.upon_issuance) =
      .ok 48400 ∧
    seedSnap.fuel = 50000 ∧ (48400 : Int) ≠ 50000 := by
  refine ⟨by rfl, rfl, by decide⟩

/-- C7 (amended): after recalc, `upon_issuance` equals the fuel of the
vehicle's (date desc, id desc)-latest ledger snapshot dated at or before
the waybill's issuance date, or zero if none exists; since each committed
trip appends a snapshot dated at the waybill's date, after a commit
`upon_issuance` equals that record's `fuel_on_return` (not the pre-trip
seed fuel value). -/
theorem upon_issuance_rule :
    (∀ ledger w, latestSnapAsOf ledger w.date = none →
      (recalcTotalsPC ledger w).upon_issuance = 0) ∧
    (∀ ledger w s, latestSnapAsOf ledger w.date = some s →
      (recalcTotalsPC ledger w).upon_issuance = s.fuel) ∧
    (∀ st w inp st2 w2 r, PCWf st → commitPC st w inp = .ok (st2, w2, r) →
      w2.upon_issuance = r.fuel_on_return) ∧
    (∀ ledger w, latestSnapAsOf ledger w.date = none →
      (recalcTotalsFT ledger w).upon_issuance = 0) ∧
    (∀ ledger w s, latestSnapAsOf ledger w.date = some s →
      (recalcTotalsFT ledger w).upon_issuance = s.fuel) ∧
    (∀ st w inp st2 w2 r, FTWf st → commitFT st w inp = .ok (st2, w2, r) →
      w2.upon_issuance = r.fuel_on_return) := by
  refine ⟨?_, ?_, ?_, ?_, ?_, ?_⟩
  · intro ledger w h
    simp only [recalcTotalsPC, h]
  · intro ledger w s h
    simp only [recalcTotalsPC, h]
  · intro st w inp st2 w2 r hwf h
    obtain ⟨prior, norm, hls, hrn, hr, -, hled, -, -, hw2⟩ :=
      commitPC_ok_elim st w inp st2 w2 r h
    have hAsOf : latestSnapAsOf st2.ledger w.date =
        some ⟨st.nextSnapId, r.odometer_after, r.fuel_on_return, w.date⟩ := by
      rw [hled]
      apply latestSnapAsOf_append_eq
      · rfl
      · intro s hs
        exact hwf s hs
    subst hw2
    simp only [recalcTotalsPC, hAsOf]
  · intro ledger w h
    simp only [recalcTotalsFT, h]
  · intro ledger w s h
    simp only [recalcTotalsFT, h]
  · intro st w inp st2 w2 r hwf h
    obtain ⟨prior, norm, hls, hrn, hr, -, hled, -, -, hw2⟩ :=
      commitFT_ok_elim st w inp st2 w2 r h
    have hAsOf : latestSnapAsOf st2.ledger w.date =
        some ⟨st.nextSnapId, r.odometer_after, r.fuel_on_return, w.date⟩ := by
      rw [hled]
      apply latestSnapAsOf_append_eq
      · rfl
      · intro s hs
        exact hwf s hs
    subst hw2
    simp only [recalcTotalsFT, hAsOf]

/-- Witness for the amended C7 at concrete inputs: empty ledger gives 0,
the seeded ledger gives the seed fuel before any trip, and after the
concrete commit `upon_issuance` equals the record's `fuel_on_return`. -/
theorem upon_issuance_rule_witness :
    (recalcTotalsPC [] pcW0).upon_issuance = 0 ∧
    (recalcTotalsPC pcSt0.ledger pcW0).upon_issuance = seedSnap.fuel ∧
    pcOut0.2.1.upon_issuance = pcOut0.2.2.fuel_on_return := by
  refine ⟨upon_issuance_rule.1 [] pcW0 (by rfl),
    upon_issuance_rule.2.1 pcSt0.ledger pcW0 seedSnap (by rfl),
    upon_issuance_rule.2.2.1 pcSt0 pcW0 pcInp0 pcOut0.1 pcOut0.2.1 pcOut0.2.2
      (by unfold PCWf; decide) (by rfl)⟩

/-- C8: NoPriorState atomicity.  Committing a trip record for a vehicle
whose ledger is empty fails with `noPriorState` for either vehicle kind;
the commit returns no successor state, so no record, snapshot or
aggregate write occurs. -/
theorem no_prior_state_atomic :
    (∀ st w inp, st.ledger = [] → commitPC st w inp = .error .noPriorState) ∧
    (∀ st w inp, st.ledger = [] → commitFT st w inp = .error .noPriorState) := by
  constructor
  · intro st w inp h
    unfold commitPC
    rw [(latestSnap_eq_none_iff st.ledger).mpr h]
  · intro st w inp h
    unfold commitFT
    rw [(latestSnap_eq_none_iff st.ledger).mpr h]

/-- Witness for C8 at the concrete never-seeded states. -/
theorem no_prior_state_atomic_witness :
    commitPC pcStE pcW0 pcInp0 = .error .noPriorState ∧
    commitFT ftStE ftW0 ftInp0 = .error .noPriorState :=
  ⟨no_prior_state_atomic.1 pcStE pcW0 pcInp0 (by rfl),
   no_prior_state_atomic.2 ftStE ftW0 ftInp0 (by rfl)⟩

/-- C9 counterexample: the code never writes a cached live state on the
vehicle (`PassengerCar` has no odometer/fuel columns); the live state the
engine observes is the (date desc, id desc)-latest ledger snapshot.  On
the concrete out-of-order scenario (seed dated day 20, trip committed on
a waybill dated day 10 reaching odometer 1015 km with 48.400 L left),
that live state after the commit is still (1000 km, 50.000 L): the live
odometer is not `max(1000, 1015) = 1015` and the live fuel is not the
record's `fuel_on_return`, refuting the claimed update rule. -/
theorem live_state_counterexample :
    (commitPC pcSt9 pcW9 pcInp0).map
      (fun out => (liveOdometer out.1.ledger, liveFuel out.1.ledger,
                   out.2.2.odometer_after, out.2.2.fuel_on_return)) =
      .ok (1000, 50000, 1015, 48400) ∧
    (1000 : Nat) ≠ max 1000 1015 ∧ (50000 : Int) ≠ 48400 := by
  refine ⟨by rfl, by decide, by decide⟩

/-- The live odometer never decreases when a snapshot at least as high as
the current latest one's odometer is appended. -/
theorem liveOdometer_append_ge (l : List Snapshot) (x prior : Snapshot)
    (hls : latestSnap l = some prior) (hx : prior.odometer ≤ x.odometer) :
    liveOdometer l ≤ liveOdometer (l ++ [x]) := by
  unfold liveOdometer
  rw [latestSnap_append, hls]
  simp only [stepLatest]
  rcases laterBy_eq_or Snapshot.date Snapshot.id prior x with he | he
  · rw [he]
  · rw [he]
    exact hx

/-- C9 (amended): the code maintains no cached odometer/fuel fields on
the vehicle; its live state is the (date desc, id desc)-latest ledger
snapshot.  A passenger-car commit appends `(odometer_after,
fuel_on_return)` dated at the waybill's date, so the live odometer is
non-decreasing across any sequence of commits (an out-of-date-order
commit leaves the live state unchanged), and an in-order commit makes
the live state exactly `(odometer_after, fuel_on_return)`. -/
theorem live_state_rule :
    (∀ st w inp st2 w2 r, commitPC st w inp = .ok (st2, w2, r) →
      liveOdometer st.ledger ≤ liveOdometer st2.ledger) ∧
    (∀ st w inp st2 w2 r, PCWf st → (∀ s ∈ st.ledger, s.date ≤ w.date) →
      commitPC st w inp = .ok (st2, w2, r) →
      liveOdometer st2.ledger = r.odometer_after ∧
      liveFuel st2.ledger = r.fuel_on_return) := by
  constructor
  · intro st w inp st2 w2 r h
    obtain ⟨prior, norm, hls, hrn, hr, -, hled, -, -, -⟩ :=
      commitPC_ok_elim st w inp st2 w2 r h
    rw [hled]
    apply liveOdometer_append_ge st.ledger _ prior hls
    show prior.odometer ≤ r.odometer_after
    subst hr
    simp only [pcDerive]
    omega
  · intro st w inp st2 w2 r hwf hdates h
    obtain ⟨prior, norm, hls, hrn, hr, -, hled, -, -, -⟩ :=
      commitPC_ok_elim st w inp st2 w2 r h
    have hlatest : latestSnap st2.ledger =
        some ⟨st.nextSnapId, r.odometer_after, r.fuel_on_return, w.date⟩ := by
      rw [hled]
      apply latestSnap_append_eq
      · intro s hs
        exact hdates s hs
      · intro s hs
        exact hwf s hs
    unfold liveOdometer liveFuel
    rw [hlatest]
    exact ⟨rfl, rfl⟩

/-- Witness for the amended C9 at the concrete in-order commit. -/
theorem live_state_rule_witness :
    liveOdometer pcSt0.ledger ≤ liveOdometer pcOut0.1.ledger ∧
    liveOdometer pcOut0.1.ledger = pcOut0.2.2.odometer_after ∧
    liveFuel pcOut0.1.ledger = pcOut0.2.2.fuel_on_return := by
  have h2 := live_state_rule.2 pcSt0 pcW0 pcInp0 pcOut0.1 pcOut0.2.1 pcOut0.2.2
    (by unfold PCWf; decide) (by decide) (by rfl)
  exact ⟨live_state_rule.1 pcSt0 pcW0 pcInp0 pcOut0.1 pcOut0.2.1 pcOut0.2.2
    (by rfl), h2.1, h2.2⟩

/-- C10: Signature workflow.  `can_user_sign_required_role` is true iff
the user's role equals the slot's role or a substitution registers the
user's role as a substitute for it; signing fails with
`permissionDenied` when that check is false or when the slot is already
filled by a different user; re-signing by the same user is a no-op
returning the existing signature with the table unchanged; and a
successful sign preserves at-most-one signature per (document, slot)
pair. -/
theorem signature_workflow :
    (∀ subs u req, can_user_sign_required_role subs u req = true ↔
      (u.role = req.role ∨
       ∃ s ∈ subs, s.main_role = req.role ∧ s.substitute_role = u.role)) ∧
    (∀ subs sigs u wb req, can_user_sign_required_role subs u req = false →
      sign_waybill_for_required_role subs sigs u wb req =
        .error .permissionDenied) ∧
    (∀ subs sigs u wb req s, findSignature sigs wb req = some s →
      s.user ≠ u.id →
      sign_waybill_for_required_role subs sigs u wb req =
        .error .permissionDenied) ∧
    (∀ subs sigs u wb req s, can_user_sign_required_role subs u req = true →
      findSignature sigs wb req = some s → s.user = u.id →
      sign_waybill_for_required_role subs sigs u wb req = .ok (sigs, s)) ∧
    (∀ subs sigs u wb req sigs2 sg, atMostOnePerSlot sigs →
      sign_waybill_for_required_role subs sigs u wb req = .ok (sigs2, sg) →
      atMostOnePerSlot sigs2) := by
  refine ⟨?_, ?_, ?_, ?_, ?_⟩
  · intro subs u req
    unfold can_user_sign_required_role
    split_ifs with h
    · simp [h]
    · simp [h, List.any_eq_true]
  · intro subs sigs u wb req h
    unfold sign_waybill_for_required_role
    rw [h]
    rfl
  · intro subs sigs u wb req s hfind hne
    unfold sign_waybill_for_required_role
    split_ifs with hcan
    · rw [hfind]
      simp [hne]
    · rfl
  · intro subs sigs u wb req s hcan hfind huser
    unfold sign_waybill_for_required_role
    rw [if_pos hcan, hfind]
    show (if s.user = u.id then Except.ok (sigs, s)
          else Except.error SignError.permissionDenied) = Except.ok (sigs, s)
    rw [if_pos huser]
  · intro subs sigs u wb req sigs2 sg hone hsign
    unfold sign_waybill_for_required_role at hsign
    split_ifs at hsign with hcan
    · cases hfind : findSignature sigs wb req with
      | some s =>
        rw [hfind] at hsign
        replace hsign : (if s.user = u.id then Except.ok (sigs, s)
            else Except.error SignError.permissionDenied) =
            Except.ok (sigs2, sg) := hsign
        split_ifs at hsign with huser
        · simp only [Except.ok.injEq, Prod.mk.injEq] at hsign
          rw [← hsign.1]
          exact hone
      | none =>
        rw [hfind] at hsign
        replace hsign : Except.ok
            (sigs ++ [({ waybill := wb, required_role := req.id,
                         user := u.id } : Signature)],
             ({ waybill := wb, required_role := req.id,
                user := u.id } : Signature)) =
            Except.ok (sigs2, sg) := hsign
        simp only [Except.ok.injEq, Prod.mk.injEq] at hsign
        rw [← hsign.1]
        intro wb2 rr2
        rw [List.filter_append]
        by_cases hw : wb = wb2
        · by_cases hr : req.id = rr2
          · subst hw
            subst hr
            have hnil : sigs.filter
                (fun s => decide (s.waybill = wb) &&
                          decide (s.required_role = req.id)) = [] := by
              rw [List.filter_eq_nil_iff]
              intro a ha
              unfold findSignature at hfind
              exact List.find?_eq_none.mp hfind a ha
            rw [hnil]
            simp
          · have hsing : List.filter
                (fun s => decide (s.waybill = wb2) &&
                          decide (s.required_role = rr2))
                [({ waybill := wb, required_role := req.id, user := u.id } :
                  Signature)] = [] := by
              simp [hr]
            rw [hsing, List.append_nil]
            exact hone wb2 rr2
        · have hsing : List.filter
              (fun s => decide (s.waybill = wb2) &&
                        decide (s.required_role = rr2))
              [({ waybill := wb, required_role := req.id, user := u.id } :
                Signature)] = [] := by
            simp [hw]
          rw [hsing, List.append_nil]
          exact hone wb2 rr2

/-- Witness for C10 at the concrete roles: a non-entitled user is
refused, a substitute is refused on an occupied slot, the original
signer's re-sign is a no-op returning the existing signature, and a
fresh sign on an empty table keeps at most one signature per slot. -/
theorem signature_workflow_witness :
    sign_waybill_for_required_role subs0 sigs0 userB 100 req0 =
      .error .permissionDenied ∧
    sign_waybill_for_required_role subs0 sigs0 userC 100 req0 =
      .error .permissionDenied ∧
    sign_waybill_for_required_role subs0 sigs0 userA 100 req0 =
      .ok (sigs0, sig0) ∧
    atMostOnePerSlot [sig0] := by
  refine ⟨signature_workflow.2.1 subs0 sigs0 userB 100 req0 (by decide),
    signature_workflow.2.2.1 subs0 sigs0 userC 100 req0 sig0 (by rfl) (by decide),
    signature_workflow.2.2.2.1 subs0 sigs0 userA 100 req0 sig0
      (by decide) (by rfl) (by rfl),
    signature_workflow.2.2.2.2 subs0 [] userA 100 req0 [sig0] sig0 ?_ (by rfl)⟩
  intro wb rr
  simp

end FireStation
